import Mathlib

/-!
Verification model of the `redis-manager` package: the `RedisManager` class
(`src/redis-manager.ts`), its value codec `JSONHandler` (`src/handler-json.ts`),
the key-namespacing `PrefixHandler` (`src/handler-prefix.ts`) and the error
classes under `src/errors/`.

Modelling conventions:
* JavaScript strings are modelled as `List Char` (`Str`).
* JavaScript numbers are modelled as `Int`; every number appearing in the
  repository's spec and tests is integral, and floating-point rounding is out
  of scope.  BigInt values are modelled as `Int`, Buffers as `List (Fin 256)`.
* The Redis backend is modelled as an association list from prefixed keys to
  the stored strings, plus a response schedule `resp : Nat → Bool` giving, for
  each successive `pipeline.exec()` / `del` attempt, whether the call throws.
  Key expiry (`pexpire`) changes no key→value association and is not modelled.
* `async`/`await` sequencing is direct state passing; a `while` loop that the
  source does not obviously exit is given an explicit fuel parameter, with
  `none` meaning "still running after `fuel` iterations".
-/

/-- JavaScript strings, as lists of characters. -/
abbrev Str := List Char

/-- Embed a Lean string literal as a model string. -/
def str (s : String) : Str := s.data

/-- The left brace character (spelled via its code point). -/
def lbrace : Char := Char.ofNat 123

/-- The right brace character (spelled via its code point). -/
def rbrace : Char := Char.ofNat 125

/-- JavaScript `String.prototype.startsWith`. -/
def strStartsWith : Str → Str → Bool
  | _, [] => true
  | [], _ :: _ => false
  | c :: cs, p :: ps => c = p && strStartsWith cs ps

/-- JavaScript `String.prototype.endsWith`. -/
def strEndsWith (s pat : Str) : Bool :=
  strStartsWith s.reverse pat.reverse

/-- One scan step of JavaScript `String.prototype.replaceAll(pat, '')`:
at each position, if `pat` matches it is removed and scanning resumes after
the match, otherwise the character is kept.  `fuel` bounds the number of scan
steps; every step consumes at least one character, so `fuel = s.length`
always suffices (the `fuel = 0` row is then unreachable). -/
def stripAllF (pat : Str) : Nat → Str → Str
  | _, [] => []
  | 0, s => s
  | fuel + 1, c :: cs =>
    if pat ≠ [] ∧ strStartsWith (c :: cs) pat = true then
      stripAllF pat fuel (List.drop (pat.length - 1) cs)
    else
      c :: stripAllF pat fuel cs

/-- JavaScript `s.replaceAll(pat, '')` for a non-empty pattern. -/
def stripAll (pat s : Str) : Str := stripAllF pat s.length s

/-- Decimal digit character (for `0 ≤ n ≤ 9`). -/
def digitChar (n : Nat) : Char := Char.ofNat (48 + n)

/-- Decimal digit value of a character, `none` on a non-digit. -/
def digitVal (c : Char) : Option Nat :=
  if 48 ≤ c.toNat ∧ c.toNat ≤ 57 then some (c.toNat - 48) else none

/-- Decimal printing of a natural number, as JavaScript `String(n)` /
`BigInt.prototype.toString` produce it.  `fuel` bounds recursion depth;
`fuel = n + 1` always suffices since the argument shrinks by a factor 10. -/
def natToDigitsF : Nat → Nat → Str
  | 0, _ => []
  | fuel + 1, n =>
    if n < 10 then [digitChar n]
    else natToDigitsF fuel (n / 10) ++ [digitChar (n % 10)]

/-- Decimal printing of a natural number. -/
def natToDigits (n : Nat) : Str := natToDigitsF (n + 1) n

/-- Decimal printing of an integer (canonical JavaScript form). -/
def intToStr (i : Int) : Str :=
  if i < 0 then '-' :: natToDigits i.natAbs else natToDigits i.toNat

/-- Left fold of decimal digits onto an accumulator; `none` on a non-digit. -/
def digitsToNatAux (acc : Nat) : Str → Option Nat
  | [] => some acc
  | c :: cs =>
    match digitVal c with
    | some d => digitsToNatAux (acc * 10 + d) cs
    | none => none

/-- JavaScript `BigInt(s)` on the string forms this model meets: an empty
string is `0n`, an optional single sign is allowed, and otherwise every
character must be a decimal digit (`none` models the thrown `SyntaxError`).
Whitespace trimming and the `0x`/`0o`/`0b` forms never occur here. -/
def strToBigInt : Str → Option Int
  | [] => some 0
  | c :: rest =>
    if c = '-' then
      if rest = [] then none else (digitsToNatAux 0 rest).map (fun n => -(n : Int))
    else if c = '+' then
      if rest = [] then none else (digitsToNatAux 0 rest).map (fun n => (n : Int))
    else (digitsToNatAux 0 (c :: rest)).map (fun n => (n : Int))

/-- Lower-case hexadecimal digit character, as `Buffer.prototype.toString('hex')`. -/
def hexDigit (d : Fin 16) : Char :=
  if d.val < 10 then Char.ofNat (48 + d.val) else Char.ofNat (87 + d.val)

/-- Hexadecimal value of a character (`Buffer.from(·, 'hex')` accepts both cases). -/
def hexVal (c : Char) : Option (Fin 16) :=
  if h : 48 ≤ c.toNat ∧ c.toNat ≤ 57 then some ⟨c.toNat - 48, by omega⟩
  else if h : 97 ≤ c.toNat ∧ c.toNat ≤ 102 then some ⟨c.toNat - 87, by omega⟩
  else if h : 65 ≤ c.toNat ∧ c.toNat ≤ 70 then some ⟨c.toNat - 55, by omega⟩
  else none

/-- High hex digit of a byte. -/
def byteHi (b : Fin 256) : Fin 16 := ⟨b.val / 16, by omega⟩

/-- Low hex digit of a byte. -/
def byteLo (b : Fin 256) : Fin 16 := ⟨b.val % 16, by omega⟩

/-- `Buffer.prototype.toString('hex')`: two lower-case hex digits per byte. -/
def hexEncode : List (Fin 256) → Str
  | [] => []
  | b :: bs => hexDigit (byteHi b) :: hexDigit (byteLo b) :: hexEncode bs

/-- `Buffer.from(s, 'hex')`: decode hex pairs, stopping (as Node does) at the
first invalid or incomplete pair. -/
def hexDecode : Str → List (Fin 256)
  | c1 :: c2 :: rest =>
    match hexVal c1, hexVal c2 with
    | some h, some l => ⟨h.val * 16 + l.val, by omega⟩ :: hexDecode rest
    | _, _ => []
  | _ => []

/-- The values the manager stores: the TypeScript `V` ranges over `null`,
booleans, numbers, strings, BigInts, Buffers and JSON-style objects/arrays. -/
inductive JSValue where
  | vnull : JSValue
  | vbool (b : Bool) : JSValue
  | vnum (n : Int) : JSValue
  | vstr (s : Str) : JSValue
  | vbigint (n : Int) : JSValue
  | vbuf (bytes : List (Fin 256)) : JSValue
  | varr (elems : List JSValue) : JSValue
  | vobj (fields : List (Str × JSValue)) : JSValue

/-- What `JSONHandler.serialize` returns (`string | number`; the Buffer branch
of the source returns the tagged hex *string*, so no Buffer ever comes out). -/
inductive Wire where
  | wstr (s : Str) : Wire
  | wnum (n : Int) : Wire

/-- `JSON.stringify` escaping of one character inside a string literal. -/
def escapeChar (c : Char) : Str :=
  if c = '"' then ['\\', '"']
  else if c = '\\' then ['\\', '\\']
  else if c = Char.ofNat 8 then ['\\', 'b']
  else if c = Char.ofNat 9 then ['\\', 't']
  else if c = Char.ofNat 10 then ['\\', 'n']
  else if c = Char.ofNat 12 then ['\\', 'f']
  else if c = Char.ofNat 13 then ['\\', 'r']
  else if h : c.toNat < 32 then
    ['\\', 'u', '0', '0', hexDigit ⟨c.toNat / 16, by omega⟩, hexDigit ⟨c.toNat % 16, by omega⟩]
  else [c]

/-- `JSON.stringify` of a string: quotes plus escaped body. -/
def escapeString (s : Str) : Str :=
  '"' :: s.foldr (fun c acc => escapeChar c ++ acc) ['"']

/-- Comma-separated concatenation, as `JSON.stringify` joins elements. -/
def joinComma : List Str → Str
  | [] => []
  | [p] => p
  | p :: ps => p ++ ',' :: joinComma ps

/-- `JSON.stringify` (compact form, as the handler calls it — no spacing).
`none` models the `TypeError` thrown on a BigInt anywhere in the value.
A Buffer inside a JSON structure serializes through `Buffer.prototype.toJSON`
as the object `{type:"Buffer",data:[...]}`.  `fuel` bounds recursion depth
and is threaded in from the caller; any fuel exceeding the nesting depth of
the value gives the source function's result. -/
def jsonStringifyF : Nat → JSValue → Option Str
  | 0, _ => none
  | fuel + 1, v =>
    match v with
    | .vnull => some (str "null")
    | .vbool true => some (str "true")
    | .vbool false => some (str "false")
    | .vnum n => some (intToStr n)
    | .vstr s => some (escapeString s)
    | .vbigint _ => none
    | .vbuf bs =>
      some (lbrace :: str "\"type\":\"Buffer\",\"data\":[" ++
            joinComma (bs.map (fun b => natToDigits b.val)) ++ ']' :: [rbrace])
    | .varr l => (l.mapM (jsonStringifyF fuel)).map (fun ps => '[' :: joinComma ps ++ [']'])
    | .vobj fs =>
      ((fs.mapM (fun kv =>
          (jsonStringifyF fuel kv.2).map (fun p => escapeString kv.1 ++ ':' :: p))).map
        (fun ps => lbrace :: joinComma ps ++ [rbrace]))

/-- The whitespace characters `JSON.parse` skips. -/
def jsonWs (c : Char) : Bool :=
  c = ' ' || c = Char.ofNat 9 || c = Char.ofNat 10 || c = Char.ofNat 13

/-- Skip JSON whitespace. -/
def skipWs (s : Str) : Str := s.dropWhile jsonWs

/-- Parse a JSON string body (after the opening quote): returns the decoded
characters and the input after the closing quote. -/
def jpStr : Str → Option (Str × Str)
  | [] => none
  | '"' :: r => some ([], r)
  | '\\' :: e :: r =>
    if e = '"' ∨ e = '\\' ∨ e = '/' then (jpStr r).map (fun p => (e :: p.1, p.2))
    else if e = 'b' then (jpStr r).map (fun p => (Char.ofNat 8 :: p.1, p.2))
    else if e = 'f' then (jpStr r).map (fun p => (Char.ofNat 12 :: p.1, p.2))
    else if e = 'n' then (jpStr r).map (fun p => (Char.ofNat 10 :: p.1, p.2))
    else if e = 'r' then (jpStr r).map (fun p => (Char.ofNat 13 :: p.1, p.2))
    else if e = 't' then (jpStr r).map (fun p => (Char.ofNat 9 :: p.1, p.2))
    else if e = 'u' then
      match r with
      | h1 :: h2 :: h3 :: h4 :: r2 =>
        match hexVal h1, hexVal h2, hexVal h3, hexVal h4 with
        | some a, some b, some c, some d =>
          (jpStr r2).map (fun p =>
            (Char.ofNat (((a.val * 16 + b.val) * 16 + c.val) * 16 + d.val) :: p.1, p.2))
        | _, _, _, _ => none
      | _ => none
    else none
  | c :: r =>
    if c.toNat < 32 then none else (jpStr r).map (fun p => (c :: p.1, p.2))

/-- Parse a JSON natural-number literal (`0` or a nonzero digit followed by
digits).  The model covers the integral numbers the repository uses: a
fractional part or exponent yields `none` (out of the model's scope), as does
a leading zero (which `JSON.parse` rejects). -/
def jpNat (s : Str) : Option (Nat × Str) :=
  match s with
  | c :: r =>
    match digitVal c with
    | none => none
    | some d =>
      if d = 0 then
        match r with
        | c2 :: _ =>
          if (digitVal c2).isSome ∨ c2 = '.' ∨ c2 = 'e' ∨ c2 = 'E' then none else some (0, r)
        | [] => some (0, r)
      else
        let ds := r.takeWhile (fun c2 => (digitVal c2).isSome)
        let rest := r.drop ds.length
        match digitsToNatAux d ds with
        | none => none
        | some n =>
          match rest with
          | c2 :: _ => if c2 = '.' ∨ c2 = 'e' ∨ c2 = 'E' then none else some (n, rest)
          | [] => some (n, rest)
  | [] => none

/-- Parse a JSON number literal (optionally negative). -/
def jpNum (s : Str) : Option (Int × Str) :=
  match s with
  | '-' :: r => (jpNat r).map (fun p => (-(p.1 : Int), p.2))
  | _ => (jpNat s).map (fun p => ((p.1 : Int), p.2))

/-- Requests of the recursive-descent JSON parser: a single value, the
elements of an array after `[`, or the fields of an object after `{`
(in the two latter cases at least one item is present; the empty cases are
handled by the caller). -/
inductive JPReq where
  | pval : JPReq
  | pelems : JPReq
  | pfields : JPReq

/-- Results of the recursive-descent JSON parser. -/
inductive JPRes where
  | rv (v : JSValue) : JPRes
  | rl (l : List JSValue) : JPRes
  | rf (f : List (Str × JSValue)) : JPRes

/-- Recursive-descent core of `JSON.parse`.  The input is assumed to start at
a non-whitespace character.  `fuel` bounds recursion depth; the initial fuel
`2 * length + 2` always suffices since every recursive call follows the
consumption of at least one input character. -/
def jp : Nat → JPReq → Str → Option (JPRes × Str)
  | 0, _, _ => none
  | fuel + 1, .pval, s =>
    match s with
    | 'n' :: 'u' :: 'l' :: 'l' :: r => some (.rv .vnull, r)
    | 't' :: 'r' :: 'u' :: 'e' :: r => some (.rv (.vbool true), r)
    | 'f' :: 'a' :: 'l' :: 's' :: 'e' :: r => some (.rv (.vbool false), r)
    | '"' :: r => (jpStr r).map (fun p => (.rv (.vstr p.1), p.2))
    | '[' :: r =>
      (match skipWs r with
       | ']' :: r2 => some (.rv (.varr []), r2)
       | r1 =>
         match jp fuel .pelems r1 with
         | some (.rl l, r2) => some (.rv (.varr l), r2)
         | _ => none)
    | c :: r =>
      if c = lbrace then
        (match skipWs r with
         | c2 :: r2 =>
           if c2 = rbrace then some (.rv (.vobj []), r2)
           else
             match jp fuel .pfields (c2 :: r2) with
             | some (.rf f, r3) => some (.rv (.vobj f), r3)
             | _ => none
         | [] => none)
      else
        (jpNum (c :: r)).map (fun p => (.rv (.vnum p.1), p.2))
    | [] => none
  | fuel + 1, .pelems, s =>
    (match jp fuel .pval s with
     | some (.rv v, r) =>
       (match skipWs r with
        | ',' :: r2 =>
          (match jp fuel .pelems (skipWs r2) with
           | some (.rl l, r3) => some (.rl (v :: l), r3)
           | _ => none)
        | ']' :: r2 => some (.rl [v], r2)
        | _ => none)
     | _ => none)
  | fuel + 1, .pfields, s =>
    match s with
    | '"' :: r =>
      (match jpStr r with
       | some (k, r1) =>
         (match skipWs r1 with
          | ':' :: r2 =>
            (match jp fuel .pval (skipWs r2) with
             | some (.rv v, r3) =>
               (match skipWs r3 with
                | ',' :: r4 =>
                  (match jp fuel .pfields (skipWs r4) with
                   | some (.rf f, r5) => some (.rf ((k, v) :: f), r5)
                   | _ => none)
                | c4 :: r4 =>
                  if c4 = rbrace then some (.rf [(k, v)], r4) else none
                | [] => none)
             | _ => none)
          | _ => none)
       | none => none)
    | _ => none

/-- `JSON.parse` (on the model's value domain): parse one value surrounded by
optional whitespace; `none` models a thrown `SyntaxError`. -/
def jsonParse (s : Str) : Option JSValue :=
  match jp (2 * s.length + 2) .pval (skipWs s) with
  | some (.rv v, r) => if skipWs r = [] then some v else none
  | _ => none

/-- The regex class `\s` of JavaScript, on the characters this model meets
(the Unicode space characters beyond ASCII never occur here). -/
def jsWs (c : Char) : Bool :=
  c = ' ' || c.toNat = 9 || c.toNat = 10 || c.toNat = 11 || c.toNat = 12 || c.toNat = 13

/-- JavaScript `String.prototype.trim`. -/
def trimStr (s : Str) : Str :=
  ((s.dropWhile jsWs).reverse.dropWhile jsWs).reverse

/-- The character class `["\/bfnrt]` of the first `isJSONString` regex. -/
def escClass (c : Char) : Bool :=
  c = '"' || c = '/' || c = 'b' || c = 'f' || c = 'n' || c = 'r' || c = 't'

/-- Is the character a hexadecimal digit (`[0-9a-fA-F]`)? -/
def isHexDig (c : Char) : Bool := (hexVal c).isSome

/-- First replacement pass of `isJSONString`: the global regex
`\\(?:["\/bfnrt]|u[0-9a-fA-F]{4})` replaced by `@`.  A global replace scans
left to right, substituting each leftmost match and resuming after it.
`fuel` bounds the scan; every step consumes at least one character, so
`fuel = s.length` always suffices. -/
def regexReplace1F : Nat → Str → Str
  | _, [] => []
  | 0, s => s
  | fuel + 1, c :: cs =>
    if c = '\\' then
      match cs with
      | d :: rest =>
        if escClass d then '@' :: regexReplace1F fuel rest
        else if d = 'u' then
          match rest with
          | h1 :: h2 :: h3 :: h4 :: rest2 =>
            if isHexDig h1 && isHexDig h2 && isHexDig h3 && isHexDig h4 then
              '@' :: regexReplace1F fuel rest2
            else c :: regexReplace1F fuel cs
          | _ => c :: regexReplace1F fuel cs
        else c :: regexReplace1F fuel cs
      | [] => [c]
    else c :: regexReplace1F fuel cs

/-- First replacement pass at its sufficient fuel. -/
def regexReplace1 (s : Str) : Str := regexReplace1F s.length s

/-- Length of a match of `"[^"\\\n\r]*"` at the start of the input, if any. -/
def qstrMatchLen (s : Str) : Option Nat :=
  match s with
  | '"' :: r =>
    let body := r.takeWhile fun d => !(d = '"' || d = '\\' || d.toNat = 10 || d.toNat = 13)
    match r.drop body.length with
    | '"' :: _ => some (body.length + 2)
    | _ => none
  | _ => none

/-- Length of a match of `-?\d+(?:\.\d*)?(?:[eE][+\-]?\d+)?` at the start of
the input, if any (greedy, with the regex's backtracking behaviour: a sign or
exponent head that is not followed by the digits it requires is not consumed). -/
def numMatchLen (s : Str) : Option Nat :=
  let sgn : Nat := match s with | '-' :: _ => 1 | _ => 0
  let s1 := s.drop sgn
  let ds := s1.takeWhile fun c => (digitVal c).isSome
  if ds.length = 0 then none
  else
    let s2 := s1.drop ds.length
    let fr : Nat := match s2 with
      | '.' :: r => 1 + (r.takeWhile fun c => (digitVal c).isSome).length
      | _ => 0
    let s3 := s2.drop fr
    let ex : Nat := match s3 with
      | e :: r =>
        if e = 'e' ∨ e = 'E' then
          match r with
          | p :: r2 =>
            if p = '+' ∨ p = '-' then
              let eds := r2.takeWhile fun c => (digitVal c).isSome
              if eds.length = 0 then 0 else 2 + eds.length
            else
              let eds := r.takeWhile fun c => (digitVal c).isSome
              if eds.length = 0 then 0 else 1 + eds.length
          | [] => 0
        else 0
      | [] => 0
    some (sgn + ds.length + fr + ex)

/-- Second replacement pass of `isJSONString`: the global regex
`"[^"\\\n\r]*"|true|false|null|-?\d+(?:\.\d*)?(?:[eE][+\-]?\d+)?` replaced
by `]`, with the alternatives tried in the source order at each position.
`fuel` bounds the scan; every step consumes at least one character, so
`fuel = s.length` always suffices. -/
def regexReplace2F : Nat → Str → Str
  | _, [] => []
  | 0, s => s
  | fuel + 1, c :: cs =>
    match qstrMatchLen (c :: cs) with
    | some n => ']' :: regexReplace2F fuel ((c :: cs).drop n)
    | none =>
      if strStartsWith (c :: cs) (str "true") then ']' :: regexReplace2F fuel ((c :: cs).drop 4)
      else if strStartsWith (c :: cs) (str "false") then ']' :: regexReplace2F fuel ((c :: cs).drop 5)
      else if strStartsWith (c :: cs) (str "null") then ']' :: regexReplace2F fuel ((c :: cs).drop 4)
      else
        match numMatchLen (c :: cs) with
        | some n => ']' :: regexReplace2F fuel ((c :: cs).drop n)
        | none => c :: regexReplace2F fuel cs

/-- Second replacement pass at its sufficient fuel. -/
def regexReplace2 (s : Str) : Str := regexReplace2F s.length s

/-- Number of characters consumed by a greedy match of `(?:\s*\[)+` at the
start of the input; `0` when not even one `\s*\[` group matches.  `fuel`
bounds the group count; each group consumes at least one character. -/
def bracketGroupsF : Nat → Str → Nat
  | 0, _ => 0
  | fuel + 1, s =>
    let sp := s.takeWhile jsWs
    match s.drop sp.length with
    | '[' :: rest =>
      sp.length + 1 + bracketGroupsF fuel rest
    | _ => 0

/-- Greedy `(?:\s*\[)+` match length at sufficient fuel. -/
def bracketGroups (s : Str) : Nat := bracketGroupsF s.length s

/-- Scanning part of the third replacement pass, past position 0 (where the
`^` alternative of `(?:^|:|,)` can no longer apply): a `:` or `,` followed by
at least one `\s*\[` group is removed together with those groups. -/
def regexReplace3F : Nat → Str → Str
  | _, [] => []
  | 0, s => s
  | fuel + 1, c :: cs =>
    if c = ':' ∨ c = ',' then
      match bracketGroups cs with
      | 0 => c :: regexReplace3F fuel cs
      | n => regexReplace3F fuel (cs.drop n)
    else c :: regexReplace3F fuel cs

/-- Third replacement pass of `isJSONString`: the global regex
`(?:^|:|,)(?:\s*\[)+` replaced by the empty string. -/
def regexReplace3 (s : Str) : Str :=
  match bracketGroups s with
  | 0 => regexReplace3F s.length s
  | n => regexReplace3F s.length (s.drop n)

/-- The final character test of `isJSONString`: `/^[\],:{}\s]*$/`. -/
def isStructChar (c : Char) : Bool :=
  c = ']' || c = ',' || c = ':' || c = lbrace || c = rbrace || jsWs c

namespace JSONHandler

/-- The BigInt sentinel tag of `JSONHandler`. -/
def BIGINT_TAG : Str := str "<JSON_HANDLER_BIGINT_TAG>"

/-- The Buffer sentinel tag of `JSONHandler`. -/
def BUFFER_TAG : Str := str "<JSON_HANDLER_BUFFER_TAG>"

/-- `JSONHandler.isJSONString`: the typeof-string guard always passes for a
model `Str`; then an empty trim fails, and otherwise the three regex
replacement passes must leave only structural characters. -/
def isJSONString (value : Str) : Bool :=
  if (trimStr value).length = 0 then false
  else (regexReplace3 (regexReplace2 (regexReplace1 value))).all isStructChar

/-- `JSONHandler.isBigintString`. -/
def isBigintString (value : Str) : Bool :=
  strStartsWith value BIGINT_TAG && strEndsWith value BIGINT_TAG

/-- `JSONHandler.isBufferString`. -/
def isBufferString (value : Str) : Bool :=
  strStartsWith value BUFFER_TAG && strEndsWith value BUFFER_TAG

/-- `JSONHandler.parse`.  The entry guard (the value must be a number, string
or Buffer) cannot fire on a `Wire`; a number passes the three string-form
tests (each is false on a non-string) and is returned unchanged, which the
`.wnum` row captures.  `none` models an exception escaping `parse`
(`SyntaxError` from `JSON.parse` or from `BigInt`). -/
def parse : Wire → Option JSValue
  | .wnum n => some (.vnum n)
  | .wstr value =>
    if isBufferString value then some (.vbuf (hexDecode (stripAll BUFFER_TAG value)))
    else if isBigintString value then (strToBigInt (stripAll BIGINT_TAG value)).map .vbigint
    else if isJSONString value then jsonParse value
    else some (.vstr value)

/-- `JSONHandler.serialize`, with the source's branch order: Buffers become
the hex form between Buffer tags; numbers and strings pass through; `null`
(and `undefined`, outside this model) becomes `JSON.stringify(null)`, the
literal `null` text; BigInts become the decimal form between BigInt tags;
everything else (booleans, arrays, objects) goes through `JSON.stringify`.
`sfuel` is the stringify recursion budget (any value above the nesting depth
gives the source's result); `none` models a `TypeError` from
`JSON.stringify`. -/
def serialize (sfuel : Nat) : JSValue → Option Wire
  | .vbuf bs => some (.wstr (BUFFER_TAG ++ hexEncode bs ++ BUFFER_TAG))
  | .vnum n => some (.wnum n)
  | .vstr s => some (.wstr s)
  | .vnull => some (.wstr (str "null"))
  | .vbigint n => some (.wstr (BIGINT_TAG ++ intToStr n ++ BIGINT_TAG))
  | v => (jsonStringifyF sfuel v).map .wstr

end JSONHandler

/-- `parse ∘ serialize`: the codec round trip of the spec's round-trip law. -/
def roundTrip (sfuel : Nat) (v : JSValue) : Option JSValue :=
  (JSONHandler.serialize sfuel v).bind JSONHandler.parse

namespace PrefixHandler

/-- `PrefixHandler.concat`: `_prefix + key` with `_prefix = namespace + ':'`.
(The variant of the handler carrying the typeof-string `KeyInvalidError12`
guard always passes it for the model's `Str` keys.) -/
def concat (ns key : Str) : Str := ns ++ ':' :: key

end PrefixHandler

/-- The error classes of `src/errors/`, named by class and code.  The
manager itself raises only `KeyExistError10`, `KeyNotExistError11` and
`RedisInternalError30`; the remaining classes exist in the error taxonomy
but are not thrown by `redis-manager.ts`. -/
inductive RErr where
  | keyExistError10 : RErr
  | keyNotExistError11 : RErr
  | keyInvalidError12 : RErr
  | redisInternalError20 : RErr
  | valueUndefiendError20 : RErr
  | redlockInternalError30 : RErr
  | redisInternalError30 : RErr
  | redlockInternalError40 : RErr
  | unknownInternalError50 : RErr
deriving DecidableEq

/-- The backend's key→value map, an association list from prefixed keys to
the stored strings (Redis stores strings; key expiry is not modelled). -/
abbrev Store := List (Str × Str)

/-- Look a key up in the store. -/
def storeLookup : Store → Str → Option Str
  | [], _ => none
  | (k, v) :: rest, key => if k = key then some v else storeLookup rest key

/-- Redis `DEL key`: the key is removed. -/
def storeRemove : Store → Str → Store
  | [], _ => []
  | (k, v) :: rest, key =>
    if k = key then storeRemove rest key else (k, v) :: storeRemove rest key

/-- What reaches Redis for a wire value: ioredis sends a number argument as
its decimal string; a string is stored as given. -/
def wireToStore : Wire → Str
  | .wstr s => s
  | .wnum n => intToStr n

/-- Effect of one successful execution of the mutation pipeline
`SET prefixedKey wire NX` (plus the optional `PEXPIRE`, which changes no
key→value association): `SET ... NX` writes only when the key is absent. -/
def applyBatchNX (st : Store) (pk w : Str) : Store :=
  match storeLookup st pk with
  | some _ => st
  | none => (pk, w) :: st

/-- Outcome of a mutating operation's retry loop, which the source can leave
only by throwing `RedisInternalError30`: the store as the loop throws, and
the number of backend calls made. -/
structure LoopEnd where
  store : Store
  attempts : Nat
deriving DecidableEq

/-- The retry loop shared by `add`/`update`/`upsert` (around
`pipeline.exec()`) and `delete` (around `client.del`):

    let retries = maxRetries;
    while (retries >= 0) {
        try { await call(); }
        catch (error) { if (retries === 0) throw RedisInternalError30; retries--; }
    }

A successful attempt applies `apply` to the store and loops again with
`retries` unchanged — the loop has no success exit, so it ends only when an
attempt at `retries = 0` fails.  `resp attempt` says whether the
`attempt`-th backend call succeeds; `none` means the loop is still running
after `fuel` iterations. -/
def pipelineLoop (apply : Store → Store) (resp : Nat → Bool) :
    Nat → Store → Nat → Nat → Option LoopEnd
  | 0, _, _, _ => none
  | fuel + 1, st, retries, attempt =>
    if resp attempt then pipelineLoop apply resp fuel (apply st) retries (attempt + 1)
    else if retries = 0 then some ⟨st, attempt + 1⟩
    else pipelineLoop apply resp fuel st (retries - 1) (attempt + 1)

/-- Result of a manager mutation as seen by the caller. -/
inductive OpResult where
  | okKV (key : Str) (value : JSValue) : OpResult
  | okBool (b : Bool) : OpResult
  | err (e : RErr) : OpResult

/-- A completed run of a mutating operation: the caller-visible result, the
final store, and the number of backend write attempts made. -/
structure RunOut where
  result : OpResult
  store : Store
  attempts : Nat

/-- The `finally` block of the mutating operations: when a lock was
acquired, a failing `lock.release()` replaces whatever outcome was in
flight with a fresh `RedisInternalError30`; a successful release leaves the
outcome unchanged. -/
def finallyRelease (releaseOk : Bool) (r : OpResult) (st : Store) (attempts : Nat) : RunOut :=
  if releaseOk then ⟨r, st, attempts⟩ else ⟨.err .redisInternalError30, st, attempts⟩

namespace RedisManager

/-- `RedisManager.add`.  Parameters beyond the source's: `ns`/`maxRetries`
come from the manager's config; `acquireOk` says whether `redlock.acquire`
succeeds and `releaseOk` whether `lock.release()` does; `resp` is the
per-attempt backend outcome; `sfuel` is the serializer's recursion budget;
`fuel` bounds the retry loop's iterations, `none` meaning the call has not
returned.  Control flow of the source: acquire the lock; `exists` → throw
`KeyExistError10`; build the pipeline (`serialize` may throw here, wrapped
into `RedisInternalError30` by the catch since it is no `CustomError`); run
the retry loop; the `return {key, value}` after the loop is unreachable;
`catch` rethrows `CustomError`s and wraps anything else; `finally` releases
the lock, a release failure being thrown as `RedisInternalError30`. -/
def add (ns : Str) (maxRetries : Nat) (acquireOk releaseOk : Bool) (resp : Nat → Bool)
    (sfuel : Nat) (st : Store) (key : Str) (value : JSValue) (fuel : Nat) : Option RunOut :=
  let prefixedKey := PrefixHandler.concat ns key
  if acquireOk = false then
    some ⟨.err .redisInternalError30, st, 0⟩
  else if (storeLookup st prefixedKey).isSome then
    some (finallyRelease releaseOk (.err .keyExistError10) st 0)
  else
    match JSONHandler.serialize sfuel value with
    | none => some (finallyRelease releaseOk (.err .redisInternalError30) st 0)
    | some w =>
      match pipelineLoop (fun s => applyBatchNX s prefixedKey (wireToStore w)) resp
          fuel st maxRetries 0 with
      | none => none
      | some e => some (finallyRelease releaseOk (.err .redisInternalError30) e.store e.attempts)

/-- `RedisManager.update`: as `add` but the existence check is inverted
(`!exist` → throw `KeyNotExistError11`), and the pipeline is the same
`SET ... NX` — the source passes `'NX'`, not `'XX'`, so on the existing key
the write never changes the stored value. -/
def update (ns : Str) (maxRetries : Nat) (acquireOk releaseOk : Bool) (resp : Nat → Bool)
    (sfuel : Nat) (st : Store) (key : Str) (value : JSValue) (fuel : Nat) : Option RunOut :=
  let prefixedKey := PrefixHandler.concat ns key
  if acquireOk = false then
    some ⟨.err .redisInternalError30, st, 0⟩
  else if (storeLookup st prefixedKey).isSome = false then
    some (finallyRelease releaseOk (.err .keyNotExistError11) st 0)
  else
    match JSONHandler.serialize sfuel value with
    | none => some (finallyRelease releaseOk (.err .redisInternalError30) st 0)
    | some w =>
      match pipelineLoop (fun s => applyBatchNX s prefixedKey (wireToStore w)) resp
          fuel st maxRetries 0 with
      | none => none
      | some e => some (finallyRelease releaseOk (.err .redisInternalError30) e.store e.attempts)

/-- `RedisManager.upsert`: as `add` but with no existence check at all, and
again the `SET ... NX` pipeline. -/
def upsert (ns : Str) (maxRetries : Nat) (acquireOk releaseOk : Bool) (resp : Nat → Bool)
    (sfuel : Nat) (st : Store) (key : Str) (value : JSValue) (fuel : Nat) : Option RunOut :=
  let prefixedKey := PrefixHandler.concat ns key
  if acquireOk = false then
    some ⟨.err .redisInternalError30, st, 0⟩
  else
    match JSONHandler.serialize sfuel value with
    | none => some (finallyRelease releaseOk (.err .redisInternalError30) st 0)
    | some w =>
      match pipelineLoop (fun s => applyBatchNX s prefixedKey (wireToStore w)) resp
          fuel st maxRetries 0 with
      | none => none
      | some e => some (finallyRelease releaseOk (.err .redisInternalError30) e.store e.attempts)

/-- `RedisManager.delete`: acquire the lock, then the same-shaped retry loop
around `result = await client.del(prefixedKey)` (a successful call removes
the key and loops again); the `return result === 1` after the loop is
unreachable. -/
def delete (ns : Str) (maxRetries : Nat) (acquireOk releaseOk : Bool) (resp : Nat → Bool)
    (st : Store) (key : Str) (fuel : Nat) : Option RunOut :=
  let prefixedKey := PrefixHandler.concat ns key
  if acquireOk = false then
    some ⟨.err .redisInternalError30, st, 0⟩
  else
    match pipelineLoop (fun s => storeRemove s prefixedKey) resp fuel st maxRetries 0 with
    | none => none
    | some e => some (finallyRelease releaseOk (.err .redisInternalError30) e.store e.attempts)

end RedisManager

/-- Result of `RedisManager.get` as seen by the caller. -/
inductive GetRes where
  | undef : GetRes
  | val (v : JSValue) : GetRes
  | err (e : RErr) : GetRes

/-- One iteration body of `get`'s try block: `some` is a `return` — the
source's `if (!value) return undefined` returns the absent sentinel both for
a missing key (a `null` read) and for a stored empty string, both falsy —
otherwise the parsed value; `none` is a throw (a failing `client.get`,
i.e. `resp attempt = false`, or `JSONHandler.parse` throwing). -/
def getAttempt (resp : Nat → Bool) (st : Store) (pk : Str) (attempt : Nat) : Option GetRes :=
  if resp attempt then
    match storeLookup st pk with
    | none => some .undef
    | some s =>
      if s = [] then some .undef
      else
        match JSONHandler.parse (.wstr s) with
        | some v => some (.val v)
        | none => none
  else none

/-- `RedisManager.get`'s retry loop: every iteration returns or throws, so
the loop is total on `retries` (the `return undefined` after it is
unreachable); a throw with `retries === 0` surfaces as
`RedisInternalError30`. -/
def getLoop (resp : Nat → Bool) (st : Store) (pk : Str) : Nat → Nat → GetRes
  | 0, attempt => (getAttempt resp st pk attempt).getD (.err .redisInternalError30)
  | retries + 1, attempt =>
    match getAttempt resp st pk attempt with
    | some g => g
    | none => getLoop resp st pk retries (attempt + 1)

namespace RedisManager

/-- `RedisManager.get`. -/
def get (ns : Str) (maxRetries : Nat) (resp : Nat → Bool) (st : Store) (key : Str) : GetRes :=
  getLoop resp st (PrefixHandler.concat ns key) maxRetries 0

end RedisManager

/-- One iteration body of `has`'s try block: `some` is the returned
`exists === 1`, `none` a thrown backend error. -/
def hasAttempt (resp : Nat → Bool) (st : Store) (pk : Str) (attempt : Nat) : Option Bool :=
  if resp attempt then some (storeLookup st pk).isSome else none

/-- `RedisManager.has`'s retry loop (same shape as `get`'s; the
`return false` after it is unreachable). -/
def hasLoop (resp : Nat → Bool) (st : Store) (pk : Str) : Nat → Nat → Except RErr Bool
  | 0, attempt =>
    match hasAttempt resp st pk attempt with
    | some b => .ok b
    | none => .error .redisInternalError30
  | retries + 1, attempt =>
    match hasAttempt resp st pk attempt with
    | some b => .ok b
    | none => hasLoop resp st pk retries (attempt + 1)

namespace RedisManager

/-- `RedisManager.has`. -/
def has (ns : Str) (maxRetries : Nat) (resp : Nat → Bool) (st : Store) (key : Str) :
    Except RErr Bool :=
  hasLoop resp st (PrefixHandler.concat ns key) maxRetries 0

end RedisManager


/-! ### Lemmas about the retry loop -/

theorem pipelineLoop_allSuccess (apply : Store → Store) :
    ∀ (fuel : Nat) (st : Store) (retries attempt : Nat),
      pipelineLoop apply (fun _ => true) fuel st retries attempt = none := by
  intro fuel
  induction fuel with
  | zero => intro st r a; rfl
  | succ f ih => intro st r a; simp [pipelineLoop, ih]

theorem pipelineLoop_allFail (apply : Store → Store) :
    ∀ (n attempt fuel : Nat) (st : Store), n + 1 ≤ fuel →
      pipelineLoop apply (fun _ => false) fuel st n attempt =
        some ⟨st, attempt + n + 1⟩ := by
  intro n
  induction n with
  | zero =>
    intro a fuel st h
    obtain ⟨f, rfl⟩ : ∃ f, fuel = f + 1 := ⟨fuel - 1, by omega⟩
    simp [pipelineLoop]
  | succ n ih =>
    intro a fuel st h
    obtain ⟨f, rfl⟩ : ∃ f, fuel = f + 1 := ⟨fuel - 1, by omega⟩
    have hrec := ih (a + 1) f st (by omega)
    have harith : a + (n + 1) + 1 = a + 1 + n + 1 := by omega
    rw [harith, ← hrec]
    simp [pipelineLoop]

/-! ### Lemmas about string primitives -/

theorem strStartsWith_append_self : ∀ (p b : Str), strStartsWith (p ++ b) p = true := by
  intro p
  induction p with
  | nil => intro b; simp [strStartsWith]
  | cons c cs ih => intro b; simp [strStartsWith, ih]

theorem strStartsWith_append_of_le :
    ∀ (a p b : Str), p.length ≤ a.length → strStartsWith (a ++ b) p = strStartsWith a p := by
  intro a
  induction a with
  | nil =>
    intro p b h
    have : p = [] := by cases p with | nil => rfl | cons q qs => simp at h
    subst this
    simp [strStartsWith]
  | cons c cs ih =>
    intro p b h
    cases p with
    | nil => simp [strStartsWith]
    | cons q ps =>
      simp only [List.cons_append, strStartsWith, List.append_eq]
      rw [ih ps b (by simp at h; omega)]

theorem strEndsWith_append_self (a p : Str) : strEndsWith (a ++ p) p = true := by
  unfold strEndsWith
  rw [List.reverse_append]
  exact strStartsWith_append_self p.reverse a.reverse

theorem strEndsWith_append_of_le (a b p : Str) (h : p.length ≤ b.length) :
    strEndsWith (a ++ b) p = strEndsWith b p := by
  unfold strEndsWith
  rw [List.reverse_append]
  exact strStartsWith_append_of_le b.reverse p.reverse a.reverse (by simpa using h)

theorem stripAllF_no_lt :
    ∀ (s pr : Str) (fuel : Nat), s.length ≤ fuel → (∀ c ∈ s, c ≠ '<') →
      stripAllF ('<' :: pr) fuel s = s := by
  intro s
  induction s with
  | nil => intro pr fuel _ _; cases fuel <;> rfl
  | cons c cs ih =>
    intro pr fuel hf hc
    obtain ⟨f, rfl⟩ : ∃ f, fuel = f + 1 := ⟨fuel - 1, by simp at hf; omega⟩
    have hcne : c ≠ '<' := hc c (by simp)
    simp only [stripAllF, strStartsWith]
    rw [if_neg (by simp [hcne])]
    rw [ih pr f (by simp at hf ⊢; omega) (fun d hd => hc d (by simp [hd]))]

theorem stripAllF_tail (pr : Str) :
    ∀ (s : Str) (fuel : Nat), s.length + 1 ≤ fuel → (∀ c ∈ s, c ≠ '<') →
      stripAllF ('<' :: pr) fuel (s ++ '<' :: pr) = s := by
  intro s
  induction s with
  | nil =>
    intro fuel hf _
    obtain ⟨f, rfl⟩ : ∃ f, fuel = f + 1 := ⟨fuel - 1, by omega⟩
    simp only [List.nil_append, stripAllF]
    rw [if_pos]
    · have : List.drop (('<' :: pr).length - 1) pr = [] := by
        simp [List.drop_length]
      rw [this]
      cases f <;> rfl
    · constructor
      · simp
      · have h0 := strStartsWith_append_self ('<' :: pr) []
        simpa using h0
  | cons c cs ih =>
    intro fuel hf hc
    obtain ⟨f, rfl⟩ : ∃ f, fuel = f + 1 := ⟨fuel - 1, by omega⟩
    have hcne : c ≠ '<' := hc c (by simp)
    simp only [List.cons_append, stripAllF, strStartsWith, List.append_eq]
    rw [if_neg (by simp [hcne])]
    rw [ih f (by simp at hf ⊢; omega) (fun d hd => hc d (by simp [hd]))]

theorem stripAll_sandwich (pr x : Str) (h : ∀ c ∈ x, c ≠ '<') :
    stripAll ('<' :: pr) (('<' :: pr) ++ x ++ ('<' :: pr)) = x := by
  unfold stripAll
  have hlen : (('<' :: pr) ++ x ++ ('<' :: pr)).length =
      (pr.length + 1) + x.length + (pr.length + 1) := by simp; omega
  rw [hlen]
  obtain ⟨f, hf⟩ : ∃ f, (pr.length + 1) + x.length + (pr.length + 1) = f + 1 :=
    ⟨(pr.length + 1) + x.length + pr.length, by omega⟩
  rw [hf]
  have hshape : ('<' :: pr) ++ x ++ ('<' :: pr) = '<' :: (pr ++ (x ++ '<' :: pr)) := by simp
  rw [hshape]
  simp only [stripAllF]
  rw [if_pos]
  · have hdrop : List.drop (('<' :: pr).length - 1) (pr ++ (x ++ '<' :: pr)) =
        x ++ '<' :: pr := by
      simp only [List.length_cons, Nat.add_sub_cancel]
      exact List.drop_left pr (x ++ '<' :: pr)
    rw [hdrop]
    exact stripAllF_tail pr x f (by omega) h
  · constructor
    · simp
    · have h0 := strStartsWith_append_self ('<' :: pr) (x ++ '<' :: pr)
      simpa using h0

/-! ### Lemmas about the decimal and hexadecimal codecs -/

theorem digitVal_digitChar : ∀ d : Fin 10, digitVal (digitChar d.val) = some d.val := by decide

theorem digitChar_ne_lt : ∀ d : Fin 10, digitChar d.val ≠ '<' := by decide

theorem digitChar_ne_minus : ∀ d : Fin 10, digitChar d.val ≠ '-' := by decide

theorem digitChar_ne_plus : ∀ d : Fin 10, digitChar d.val ≠ '+' := by decide

theorem natToDigitsF_mem :
    ∀ (fuel n : Nat) (c : Char), c ∈ natToDigitsF fuel n → ∃ d : Nat, d < 10 ∧ c = digitChar d := by
  intro fuel
  induction fuel with
  | zero => intro n c hc; simp [natToDigitsF] at hc
  | succ f ih =>
    intro n c hc
    by_cases h : n < 10
    · simp [natToDigitsF, h] at hc
      exact ⟨n, h, hc⟩
    · simp [natToDigitsF, h] at hc
      rcases hc with hc | hc
      · exact ih (n / 10) c hc
      · exact ⟨n % 10, by omega, hc⟩

theorem natToDigitsF_ne_nil : ∀ (f n : Nat), natToDigitsF (f + 1) n ≠ [] := by
  intro f n
  by_cases h : n < 10 <;> simp [natToDigitsF, h]

theorem digitsToNatAux_append :
    ∀ (s t : Str) (acc : Nat),
      digitsToNatAux acc (s ++ t) =
        (digitsToNatAux acc s).bind (fun a => digitsToNatAux a t) := by
  intro s
  induction s with
  | nil => intro t acc; simp [digitsToNatAux]
  | cons c cs ih =>
    intro t acc
    simp only [List.cons_append, digitsToNatAux]
    cases digitVal c with
    | none => simp
    | some d => simp [ih]

theorem digitsToNatAux_natToDigitsF :
    ∀ (fuel n acc : Nat), n < fuel →
      digitsToNatAux acc (natToDigitsF fuel n) =
        some (acc * 10 ^ (natToDigitsF fuel n).length + n) := by
  intro fuel
  induction fuel with
  | zero => intro n acc h; omega
  | succ f ih =>
    intro n acc hn
    by_cases h : n < 10
    · have hd := digitVal_digitChar ⟨n, h⟩
      simp [natToDigitsF, h, digitsToNatAux, hd]
    · have h10 : n / 10 < f := by omega
      have hrec := ih (n / 10) acc h10
      have hd := digitVal_digitChar ⟨n % 10, by omega⟩
      simp only [natToDigitsF, if_neg h]
      rw [digitsToNatAux_append, hrec]
      simp only [Option.some_bind, digitsToNatAux, hd]
      simp only [List.length_append, List.length_cons, List.length_nil]
      congr 1
      rw [pow_succ]
      generalize (10 : Nat) ^ List.length (natToDigitsF f (n / 10)) = M
      have hmod : n = n / 10 * 10 + n % 10 := by omega
      conv_rhs => rw [hmod]
      ring

theorem digitsToNatAux_natToDigits (n : Nat) : digitsToNatAux 0 (natToDigits n) = some n := by
  have h := digitsToNatAux_natToDigitsF (n + 1) n 0 (by omega)
  simpa using h

theorem natToDigits_head_digit (n : Nat) :
    ∃ (d : Nat) (rest : Str), d < 10 ∧ natToDigits n = digitChar d :: rest := by
  unfold natToDigits
  cases hs : natToDigitsF (n + 1) n with
  | nil => exact absurd hs (natToDigitsF_ne_nil n n)
  | cons c rest =>
    have hc : c ∈ natToDigitsF (n + 1) n := by rw [hs]; simp
    obtain ⟨d, hd, rfl⟩ := natToDigitsF_mem (n + 1) n c hc
    exact ⟨d, rest, hd, rfl⟩

theorem strToBigInt_cons (c : Char) (rest : Str) :
    strToBigInt (c :: rest) =
      if c = '-' then
        (if rest = [] then none else (digitsToNatAux 0 rest).map (fun n => -(n : Int)))
      else if c = '+' then
        (if rest = [] then none else (digitsToNatAux 0 rest).map (fun n => (n : Int)))
      else (digitsToNatAux 0 (c :: rest)).map (fun n => (n : Int)) := rfl

theorem strToBigInt_natToDigits (n : Nat) : strToBigInt (natToDigits n) = some ((n : Int)) := by
  obtain ⟨d, rest, hd, hshape⟩ := natToDigits_head_digit n
  rw [hshape, strToBigInt_cons, if_neg (digitChar_ne_minus ⟨d, hd⟩),
    if_neg (digitChar_ne_plus ⟨d, hd⟩)]
  rw [← hshape, digitsToNatAux_natToDigits n]
  rfl

theorem strToBigInt_intToStr (i : Int) : strToBigInt (intToStr i) = some i := by
  unfold intToStr
  by_cases h : i < 0
  · rw [if_pos h]
    have hne : natToDigits i.natAbs ≠ [] := natToDigitsF_ne_nil i.natAbs i.natAbs
    show strToBigInt ('-' :: natToDigits i.natAbs) = some i
    rw [strToBigInt_cons, if_pos rfl, if_neg hne, digitsToNatAux_natToDigits]
    show some (-(i.natAbs : Int)) = some i
    congr 1
    omega
  · rw [if_neg h, strToBigInt_natToDigits i.toNat]
    have hcast : ((i.toNat : Int)) = i := Int.toNat_of_nonneg (by omega)
    rw [hcast]

theorem intToStr_mem_ne_lt (i : Int) : ∀ c ∈ intToStr i, c ≠ '<' := by
  intro c hc
  unfold intToStr at hc
  by_cases h : i < 0
  · rw [if_pos h] at hc
    rcases List.mem_cons.mp hc with hc | hc
    · subst hc; decide
    · obtain ⟨d, hd, rfl⟩ := natToDigitsF_mem _ _ c hc
      exact digitChar_ne_lt ⟨d, hd⟩
  · rw [if_neg h] at hc
    obtain ⟨d, hd, rfl⟩ := natToDigitsF_mem _ _ c hc
    exact digitChar_ne_lt ⟨d, hd⟩

theorem hexVal_hexDigit : ∀ d : Fin 16, hexVal (hexDigit d) = some d := by decide

theorem hexDigit_ne_lt : ∀ d : Fin 16, hexDigit d ≠ '<' := by decide

theorem hexDecode_hexEncode : ∀ bs : List (Fin 256), hexDecode (hexEncode bs) = bs := by
  intro bs
  induction bs with
  | nil => rfl
  | cons b bs ih =>
    simp only [hexEncode, hexDecode, hexVal_hexDigit (byteHi b), hexVal_hexDigit (byteLo b)]
    rw [ih]
    congr 1
    apply Fin.ext
    show b.val / 16 * 16 + b.val % 16 = b.val
    omega

theorem hexEncode_mem_ne_lt (bs : List (Fin 256)) : ∀ c ∈ hexEncode bs, c ≠ '<' := by
  induction bs with
  | nil => intro c hc; simp [hexEncode] at hc
  | cons b bs ih =>
    intro c hc
    simp only [hexEncode, List.mem_cons] at hc
    rcases hc with rfl | rfl | hc
    · exact hexDigit_ne_lt (byteHi b)
    · exact hexDigit_ne_lt (byteLo b)
    · exact ih c hc

/-! ### Lemmas about the sentinel tags and `JSONHandler.parse` -/

theorem BIGINT_TAG_shape : JSONHandler.BIGINT_TAG = '<' :: str "JSON_HANDLER_BIGINT_TAG>" := rfl

theorem BUFFER_TAG_shape : JSONHandler.BUFFER_TAG = '<' :: str "JSON_HANDLER_BUFFER_TAG>" := rfl

theorem isBufferString_bigint_form (x : Str) :
    JSONHandler.isBufferString
      (JSONHandler.BIGINT_TAG ++ x ++ JSONHandler.BIGINT_TAG) = false := by
  unfold JSONHandler.isBufferString
  rw [List.append_assoc]
  rw [strStartsWith_append_of_le JSONHandler.BIGINT_TAG JSONHandler.BUFFER_TAG
      (x ++ JSONHandler.BIGINT_TAG) (by decide)]
  have h : strStartsWith JSONHandler.BIGINT_TAG JSONHandler.BUFFER_TAG = false := by decide
  rw [h]
  simp

theorem isBigintString_bigint_form (x : Str) :
    JSONHandler.isBigintString
      (JSONHandler.BIGINT_TAG ++ x ++ JSONHandler.BIGINT_TAG) = true := by
  unfold JSONHandler.isBigintString
  rw [List.append_assoc]
  rw [strEndsWith_append_of_le JSONHandler.BIGINT_TAG (x ++ JSONHandler.BIGINT_TAG)
      JSONHandler.BIGINT_TAG (by simp)]
  rw [strStartsWith_append_self, strEndsWith_append_self]
  rfl

theorem isBufferString_buffer_form (x : Str) :
    JSONHandler.isBufferString
      (JSONHandler.BUFFER_TAG ++ x ++ JSONHandler.BUFFER_TAG) = true := by
  unfold JSONHandler.isBufferString
  rw [List.append_assoc]
  rw [strEndsWith_append_of_le JSONHandler.BUFFER_TAG (x ++ JSONHandler.BUFFER_TAG)
      JSONHandler.BUFFER_TAG (by simp)]
  rw [strStartsWith_append_self, strEndsWith_append_self]
  rfl

theorem parse_tagged_bigint (n : Int) :
    JSONHandler.parse
      (.wstr (JSONHandler.BIGINT_TAG ++ intToStr n ++ JSONHandler.BIGINT_TAG)) =
      some (.vbigint n) := by
  simp only [JSONHandler.parse, isBufferString_bigint_form, isBigintString_bigint_form,
    Bool.false_eq_true, if_false, if_true]
  rw [BIGINT_TAG_shape, stripAll_sandwich _ _ (intToStr_mem_ne_lt n), strToBigInt_intToStr]
  rfl

theorem parse_tagged_buffer (bs : List (Fin 256)) :
    JSONHandler.parse
      (.wstr (JSONHandler.BUFFER_TAG ++ hexEncode bs ++ JSONHandler.BUFFER_TAG)) =
      some (.vbuf bs) := by
  simp only [JSONHandler.parse, isBufferString_buffer_form, if_true]
  rw [BUFFER_TAG_shape, stripAll_sandwich _ _ (hexEncode_mem_ne_lt bs), hexDecode_hexEncode]

/-! ### Lemmas about the read loops -/

theorem getLoop_first_success (resp : Nat → Bool) (st : Store) (pk : Str) (g : GetRes) :
    ∀ (mr a : Nat), getAttempt resp st pk a = some g → getLoop resp st pk mr a = g := by
  intro mr a h
  cases mr <;> simp [getLoop, h]

theorem hasLoop_first_success (resp : Nat → Bool) (st : Store) (pk : Str) (b : Bool) :
    ∀ (mr a : Nat), hasAttempt resp st pk a = some b → hasLoop resp st pk mr a = .ok b := by
  intro mr a h
  cases mr <;> simp [hasLoop, h]

/-! ### The claims -/

/-- Claim C3: the claim says the retry loop inside each mutating operation
(add, update, upsert, delete) terminates, returning after the first
successful backend call.  In the source the loop has no success exit
(`retries` is decremented only in the catch branch), so against a backend
whose every call succeeds the loop runs forever: at every fuel the shared
loop is still running (`none`), and so are `add` on a fresh key, `update` on
an existing key, `upsert`, and `delete`. -/
theorem c3_retry_loop_never_exits_on_success :
    (∀ (apply : Store → Store) (fuel : Nat) (st : Store) (retries attempt : Nat),
      pipelineLoop apply (fun _ => true) fuel st retries attempt = none) ∧
    (∀ fuel : Nat,
      RedisManager.add (str "t") 5 true true (fun _ => true) 1 [] (str "k") .vnull fuel
        = none) ∧
    (∀ fuel : Nat,
      RedisManager.update (str "t") 5 true true (fun _ => true) 1
        [(PrefixHandler.concat (str "t") (str "k"), str "null")] (str "k") .vnull fuel
        = none) ∧
    (∀ fuel : Nat,
      RedisManager.upsert (str "t") 5 true true (fun _ => true) 1 [] (str "k") .vnull fuel
        = none) ∧
    (∀ fuel : Nat,
      RedisManager.delete (str "t") 5 true true (fun _ => true) [] (str "k") fuel
        = none) := by
  refine ⟨pipelineLoop_allSuccess, fun fuel => ?_, fun fuel => ?_, fun fuel => ?_, fun fuel => ?_⟩
  · simp only [RedisManager.add, pipelineLoop_allSuccess]
    rfl
  · simp only [RedisManager.update, pipelineLoop_allSuccess]
    rfl
  · simp only [RedisManager.upsert, pipelineLoop_allSuccess]
    rfl
  · simp only [RedisManager.delete, pipelineLoop_allSuccess]
    rfl

/-- Claim C4: the claim says `add` on a fresh key succeeds and a following
`get` returns the value with its original type.  In the source, on a fresh
key with a healthy backend the NX write does store the serialized value (the
second conjunct: reading the store produced by one execution of the batch
returns the value intact), but `add` itself never returns — its retry loop
has no success exit — so the call does not succeed (first conjunct: still
running at every fuel).  The repository's own tests expect
`add(...)` to resolve, so the code contradicts them. -/
theorem c4_add_on_fresh_key_never_returns :
    (∀ fuel : Nat,
      RedisManager.add (str "t") 5 true true (fun _ => true) 3 [] (str "object")
        (.vobj [(str "data", .vstr (str "random"))]) fuel = none) ∧
    (RedisManager.get (str "t") 5 (fun _ => true)
        (applyBatchNX [] (PrefixHandler.concat (str "t") (str "object"))
          (wireToStore ((JSONHandler.serialize 3
            (.vobj [(str "data", .vstr (str "random"))])).getD (.wstr []))))
        (str "object")
      = .val (.vobj [(str "data", .vstr (str "random"))])) := by
  constructor
  · intro fuel
    simp only [RedisManager.add, pipelineLoop_allSuccess]
    rfl
  · rfl

/-- Claim C1: the claim says repeated `upsert({key, value: v})` never raises
an existence error and always leaves `get(key) == v`, even when the key
already held a different value.  The no-existence-error half matches the
source (`upsert` has no existence check).  But the source's pipeline is
`SET ... 'NX'`, not an unconditional set, and the retry loop has no success
exit: with the key holding `"a"`, `upsert` of `"b"` never returns (first
conjunct), its batch — even when executed — leaves the store unchanged
(third conjunct), and `get` still returns `"a"`, not `"b"` (fourth and fifth
conjuncts).  The source's own doc comment says an existing key's value is
updated, so the code contradicts its documentation. -/
theorem c1_upsert_nx_keeps_old_value :
    (∀ fuel : Nat,
      RedisManager.upsert (str "u") 5 true true (fun _ => true) 1
        [(PrefixHandler.concat (str "u") (str "k"), str "a")] (str "k")
        (.vstr (str "b")) fuel = none) ∧
    (JSONHandler.serialize 1 (.vstr (str "b")) = some (.wstr (str "b"))) ∧
    (applyBatchNX [(PrefixHandler.concat (str "u") (str "k"), str "a")]
        (PrefixHandler.concat (str "u") (str "k")) (wireToStore (.wstr (str "b")))
      = [(PrefixHandler.concat (str "u") (str "k"), str "a")]) ∧
    (RedisManager.get (str "u") 5 (fun _ => true)
        [(PrefixHandler.concat (str "u") (str "k"), str "a")] (str "k")
      = .val (.vstr (str "a"))) ∧
    (GetRes.val (.vstr (str "a")) ≠ GetRes.val (.vstr (str "b"))) := by
  refine ⟨fun fuel => ?_, rfl, rfl, rfl, ?_⟩
  · simp only [RedisManager.upsert, pipelineLoop_allSuccess]
    rfl
  · simp [str]

/-- Claim C2: the claim says `update` on an existing key performs an XX
(set-if-present) conditional write and succeeds, a following `get` returning
the new value.  In the source `update` issues `SET ... 'NX'` — set-if-absent
— after its existence check, so on the existing key the write never changes
the stored value, and the retry loop has no success exit, so the call never
returns: with `"test"` holding `null`, `update` to `42` is still running at
every fuel (first conjunct), its batch leaves the store unchanged (third
conjunct), and `get` still returns `null`, not `42` (fourth and fifth
conjuncts).  The repository's own update test (add `null`, update to an
object, expect `get` to see the object) contradicts the code. -/
theorem c2_update_nx_never_writes :
    (∀ fuel : Nat,
      RedisManager.update (str "n") 5 true true (fun _ => true) 1
        [(PrefixHandler.concat (str "n") (str "test"), str "null")] (str "test")
        (.vnum 42) fuel = none) ∧
    (JSONHandler.serialize 1 (.vnum 42) = some (.wnum 42)) ∧
    (applyBatchNX [(PrefixHandler.concat (str "n") (str "test"), str "null")]
        (PrefixHandler.concat (str "n") (str "test")) (wireToStore (.wnum 42))
      = [(PrefixHandler.concat (str "n") (str "test"), str "null")]) ∧
    (RedisManager.get (str "n") 5 (fun _ => true)
        [(PrefixHandler.concat (str "n") (str "test"), str "null")] (str "test")
      = .val .vnull) ∧
    (GetRes.val JSValue.vnull ≠ GetRes.val (.vnum 42)) := by
  refine ⟨fun fuel => ?_, rfl, rfl, rfl, ?_⟩
  · simp only [RedisManager.update, pipelineLoop_allSuccess]
    rfl
  · simp

/-- Claim C6: after the key exists (as it does after a successful first
`add` stored `serialize v1` under it), a second `add` throws
`KeyExistError10` before building the pipeline — zero backend write
attempts, so nothing is retried — and leaves the store unchanged, so `get`
still returns the first value. -/
theorem c6_second_add_raises_keyexists (ns : Str) (mr : Nat) (resp : Nat → Bool)
    (sfuel fuel : Nat) (st : Store) (key : Str) (v2 : JSValue) (w1 : Str)
    (h : storeLookup st (PrefixHandler.concat ns key) = some w1) :
    RedisManager.add ns mr true true resp sfuel st key v2 fuel =
      some ⟨.err .keyExistError10, st, 0⟩ ∧
    (∀ v1 : JSValue, w1 ≠ [] → JSONHandler.parse (.wstr w1) = some v1 →
      RedisManager.get ns mr (fun _ => true) st key = .val v1) := by
  constructor
  · simp [RedisManager.add, h, finallyRelease]
  · intro v1 hne hp
    unfold RedisManager.get
    apply getLoop_first_success
    simp [getAttempt, h, hne, hp]

/-- Witness for C6 at the spec's scenario `add {x:1}` then `add {x:2}`:
with the store as a successful first `add` leaves it, the second `add`
returns the `KeyExistError10` outcome with zero write attempts and the
unchanged store, and `get` still returns `{x:1}`. -/
theorem c6_second_add_raises_keyexists_witness :
    storeLookup
        [(PrefixHandler.concat (str "t") (str "a"),
          wireToStore ((JSONHandler.serialize 2
            (.vobj [(str "x", .vnum 1)])).getD (.wstr [])))]
        (PrefixHandler.concat (str "t") (str "a"))
      = some (wireToStore ((JSONHandler.serialize 2
          (.vobj [(str "x", .vnum 1)])).getD (.wstr []))) ∧
    RedisManager.add (str "t") 5 true true (fun _ => true) 2
        [(PrefixHandler.concat (str "t") (str "a"),
          wireToStore ((JSONHandler.serialize 2
            (.vobj [(str "x", .vnum 1)])).getD (.wstr [])))]
        (str "a") (.vobj [(str "x", .vnum 2)]) 9 =
      some ⟨.err .keyExistError10,
        [(PrefixHandler.concat (str "t") (str "a"),
          wireToStore ((JSONHandler.serialize 2
            (.vobj [(str "x", .vnum 1)])).getD (.wstr [])))], 0⟩ ∧
    RedisManager.get (str "t") 5 (fun _ => true)
        [(PrefixHandler.concat (str "t") (str "a"),
          wireToStore ((JSONHandler.serialize 2
            (.vobj [(str "x", .vnum 1)])).getD (.wstr [])))]
        (str "a")
      = .val (.vobj [(str "x", .vnum 1)]) := by
  refine ⟨rfl, ?_, ?_⟩
  · exact (c6_second_add_raises_keyexists (str "t") 5 (fun _ => true) 2 9
      [(PrefixHandler.concat (str "t") (str "a"),
        wireToStore ((JSONHandler.serialize 2
          (.vobj [(str "x", .vnum 1)])).getD (.wstr [])))]
      (str "a") (.vobj [(str "x", .vnum 2)])
      (wireToStore ((JSONHandler.serialize 2
        (.vobj [(str "x", .vnum 1)])).getD (.wstr [])))
      rfl).1
  · exact (c6_second_add_raises_keyexists (str "t") 5 (fun _ => true) 2 9
      [(PrefixHandler.concat (str "t") (str "a"),
        wireToStore ((JSONHandler.serialize 2
          (.vobj [(str "x", .vnum 1)])).getD (.wstr [])))]
      (str "a") (.vobj [(str "x", .vnum 2)])
      (wireToStore ((JSONHandler.serialize 2
        (.vobj [(str "x", .vnum 1)])).getD (.wstr [])))
      rfl).2 (.vobj [(str "x", .vnum 1)]) (by decide) rfl

/-- Claim C7: with every backend write attempt failing, `add` makes exactly
`maxRetries + 1` attempts (the initial one plus `maxRetries` retries) and
raises `RedisInternalError30` (the spec's `BackendInternalError`), leaving
the store unchanged. -/
theorem c7_add_exhausts_retries_after_n_plus_1_attempts
    (ns : Str) (n sfuel fuel : Nat) (st : Store) (key : Str) (v : JSValue) (w : Wire)
    (hfree : storeLookup st (PrefixHandler.concat ns key) = none)
    (hser : JSONHandler.serialize sfuel v = some w)
    (hfuel : n + 1 ≤ fuel) :
    RedisManager.add ns n true true (fun _ => false) sfuel st key v fuel =
      some ⟨.err .redisInternalError30, st, n + 1⟩ := by
  simp only [RedisManager.add, hfree, hser, Option.isSome_none, Bool.false_eq_true,
    if_false]
  rw [if_neg (by simp)]
  rw [pipelineLoop_allFail _ n 0 fuel st hfuel]
  simp [finallyRelease]

/-- Witness for C7 at the spec's scenario `maxRetries = 5`: an always-failing
backend write makes `add` raise `RedisInternalError30` after exactly 6
attempts. -/
theorem c7_add_exhausts_retries_witness :
    RedisManager.add (str "t") 5 true true (fun _ => false) 1 [] (str "a") .vnull 6 =
      some ⟨.err .redisInternalError30, [], 6⟩ :=
  c7_add_exhausts_retries_after_n_plus_1_attempts (str "t") 5 1 6 [] (str "a") .vnull
    (.wstr (str "null")) rfl rfl (by omega)

/-- Claim C8 (counterexample): the claim says a lock-release failure is
raised as a `LockInternalError` (the redlock error classes of
`src/errors/`), not as a backend error.  At a concrete run — `add` on an
existing key with the release failing — the raised error is
`RedisInternalError30`, the backend error class, which is none of the
redlock classes. -/
theorem c8_release_failure_not_lock_error :
    RedisManager.add (str "t") 0 true false (fun _ => true) 1
        [(PrefixHandler.concat (str "t") (str "k"), str "null")] (str "k") .vnull 1 =
      some ⟨.err .redisInternalError30,
        [(PrefixHandler.concat (str "t") (str "k"), str "null")], 0⟩ ∧
    RErr.redisInternalError30 ≠ RErr.redlockInternalError40 ∧
    RErr.redisInternalError30 ≠ RErr.redlockInternalError30 :=
  ⟨rfl, by decide, by decide⟩

/-- Claim C8 (amended): whenever a mutating operation that acquired its lock
completes with the lock release failing, the failure is raised to the caller
— even when the guarded write already changed the store — but it is wrapped
as `RedisInternalError30`, the backend error class, not as a lock-specific
error. -/
theorem c8_release_failure_raised_as_redis_error
    (ns : Str) (mr : Nat) (resp : Nat → Bool) (sfuel : Nat) (st : Store) (key : Str)
    (v : JSValue) (fuel : Nat) (out : RunOut) :
    (RedisManager.add ns mr true false resp sfuel st key v fuel = some out →
      out.result = .err .redisInternalError30) ∧
    (RedisManager.update ns mr true false resp sfuel st key v fuel = some out →
      out.result = .err .redisInternalError30) ∧
    (RedisManager.upsert ns mr true false resp sfuel st key v fuel = some out →
      out.result = .err .redisInternalError30) ∧
    (RedisManager.delete ns mr true false resp st key fuel = some out →
      out.result = .err .redisInternalError30) := by
  refine ⟨?_, ?_, ?_, ?_⟩
  · intro h
    simp only [RedisManager.add] at h
    rw [if_neg (by simp)] at h
    split at h
    · cases h; rfl
    · split at h
      · cases h; rfl
      · split at h
        · cases h
        · cases h; rfl
  · intro h
    simp only [RedisManager.update] at h
    rw [if_neg (by simp)] at h
    split at h
    · cases h; rfl
    · split at h
      · cases h; rfl
      · split at h
        · cases h
        · cases h; rfl
  · intro h
    simp only [RedisManager.upsert] at h
    rw [if_neg (by simp)] at h
    split at h
    · cases h; rfl
    · split at h
      · cases h
      · cases h; rfl
  · intro h
    simp only [RedisManager.delete] at h
    rw [if_neg (by simp)] at h
    split at h
    · cases h
    · cases h; rfl

/-- Witness for C8: a run of `add` on a fresh key in which the first backend
write succeeds (the store gains the key) and the retries then exhaust; with
the release failing, the completed run carries `RedisInternalError30`. -/
theorem c8_release_failure_raised_witness :
    RedisManager.add (str "t") 0 true false (fun a => decide (a = 0)) 1 [] (str "k")
        .vnull 3 =
      some ⟨.err .redisInternalError30,
        [(PrefixHandler.concat (str "t") (str "k"), str "null")], 2⟩ ∧
    (RunOut.mk (.err .redisInternalError30)
        [(PrefixHandler.concat (str "t") (str "k"), str "null")] 2).result =
      .err .redisInternalError30 := by
  refine ⟨rfl, ?_⟩
  exact (c8_release_failure_raised_as_redis_error (str "t") 0 (fun a => decide (a = 0)) 1
    [] (str "k") .vnull 3
    ⟨.err .redisInternalError30,
      [(PrefixHandler.concat (str "t") (str "k"), str "null")], 2⟩).1 rfl

/-- Claim C9: `get` on an absent key returns the absent sentinel
(`undefined`); a key storing the encoding of `null` — which `serialize`
writes as the literal text `null` — decodes back to the value `null`, a
result distinct from the absent sentinel. -/
theorem c9_get_absent_vs_stored_null (ns : Str) (mr : Nat) (st : Store) (key : Str) :
    (storeLookup st (PrefixHandler.concat ns key) = none →
      RedisManager.get ns mr (fun _ => true) st key = .undef) ∧
    (storeLookup st (PrefixHandler.concat ns key) = some (str "null") →
      RedisManager.get ns mr (fun _ => true) st key = .val .vnull) ∧
    (GetRes.val .vnull ≠ GetRes.undef) ∧
    (JSONHandler.serialize 0 .vnull = some (.wstr (str "null"))) := by
  refine ⟨?_, ?_, by simp, rfl⟩
  · intro h
    unfold RedisManager.get
    apply getLoop_first_success
    simp [getAttempt, h]
  · intro h
    unfold RedisManager.get
    apply getLoop_first_success
    simp only [getAttempt, h]
    rfl

/-- Witness for C9: an empty store gives the absent sentinel; a store
holding the text `null` under the key gives the value `null`. -/
theorem c9_get_absent_vs_stored_null_witness :
    RedisManager.get (str "t") 5 (fun _ => true) [] (str "missing") = .undef ∧
    RedisManager.get (str "t") 5 (fun _ => true)
        [(PrefixHandler.concat (str "t") (str "nullkey"), str "null")] (str "nullkey") =
      .val .vnull := by
  constructor
  · exact (c9_get_absent_vs_stored_null (str "t") 5 [] (str "missing")).1 rfl
  · exact (c9_get_absent_vs_stored_null (str "t") 5
      [(PrefixHandler.concat (str "t") (str "nullkey"), str "null")] (str "nullkey")).2.1 rfl

/-- Claim C10: a key whose stored wire encoding is the empty string — as
`upsert` of the empty string stores it, `serialize` being the identity on
strings — is reported by `get` as the absent sentinel (`if (!value)` treats
the empty string as falsy), although `has` reports the key as present. -/
theorem c10_empty_string_wire_reads_as_absent (ns : Str) (mr : Nat) (st : Store)
    (key : Str) (h : storeLookup st (PrefixHandler.concat ns key) = some []) :
    RedisManager.get ns mr (fun _ => true) st key = .undef ∧
    RedisManager.has ns mr (fun _ => true) st key = .ok true ∧
    JSONHandler.serialize 0 (.vstr []) = some (.wstr []) := by
  refine ⟨?_, ?_, rfl⟩
  · unfold RedisManager.get
    apply getLoop_first_success
    simp [getAttempt, h]
  · unfold RedisManager.has
    apply hasLoop_first_success
    simp [hasAttempt, h]

/-- Witness for C10: on the store produced by the upsert batch writing the
serialized empty string under the key, `get` returns the absent sentinel
while `has` returns true. -/
theorem c10_empty_string_wire_witness :
    storeLookup
        (applyBatchNX [] (PrefixHandler.concat (str "t") (str "e"))
          (wireToStore ((JSONHandler.serialize 0 (.vstr [])).getD (.wnum 0))))
        (PrefixHandler.concat (str "t") (str "e")) = some [] ∧
    RedisManager.get (str "t") 5 (fun _ => true)
        (applyBatchNX [] (PrefixHandler.concat (str "t") (str "e"))
          (wireToStore ((JSONHandler.serialize 0 (.vstr [])).getD (.wnum 0))))
        (str "e") = .undef ∧
    RedisManager.has (str "t") 5 (fun _ => true)
        (applyBatchNX [] (PrefixHandler.concat (str "t") (str "e"))
          (wireToStore ((JSONHandler.serialize 0 (.vstr [])).getD (.wnum 0))))
        (str "e") = .ok true := by
  refine ⟨rfl, ?_, ?_⟩
  · exact (c10_empty_string_wire_reads_as_absent (str "t") 5
      (applyBatchNX [] (PrefixHandler.concat (str "t") (str "e"))
        (wireToStore ((JSONHandler.serialize 0 (.vstr [])).getD (.wnum 0))))
      (str "e") rfl).1
  · exact (c10_empty_string_wire_reads_as_absent (str "t") 5
      (applyBatchNX [] (PrefixHandler.concat (str "t") (str "e"))
        (wireToStore ((JSONHandler.serialize 0 (.vstr [])).getD (.wnum 0))))
      (str "e") rfl).2.1

/-- Claim C5 (counterexample): the claim says every string decodes as the
same string, but the value `"null"` — a string that reads as JSON text —
round-trips to the *value* `null`: `serialize` passes the string through
unchanged and `parse` sees `isJSONString` succeed and `JSON.parse`s it. -/
theorem c5_string_roundtrip_counterexample :
    roundTrip 0 (.vstr (str "null")) = some .vnull ∧
    JSValue.vnull ≠ .vstr (str "null") :=
  ⟨rfl, by simp⟩

/-- Claim C5 (amended): `parse (serialize v)` returns `v` with its type
preserved for `null`, every boolean, every (integral) number, every big
integer (decoding as a big integer, tagged), every binary blob (decoding as
a blob, tagged), and every string that carries no sentinel tag and is not
recognized as JSON text; for JSON objects and arrays it holds on the spec's
representative instances `[1,2,3]` and `{a:1}`.  It fails only for strings
the tag or JSON detection misreads, such as `"null"` (the counterexample).
The `sfuel + 1` budget on booleans covers `JSON.stringify`'s recursion;
every other variant is serialized without it. -/
theorem c5_roundtrip_amended :
    (∀ sfuel : Nat, roundTrip sfuel .vnull = some .vnull) ∧
    (∀ (sfuel : Nat) (b : Bool), roundTrip (sfuel + 1) (.vbool b) = some (.vbool b)) ∧
    (∀ (sfuel : Nat) (n : Int), roundTrip sfuel (.vnum n) = some (.vnum n)) ∧
    (∀ (sfuel : Nat) (n : Int), roundTrip sfuel (.vbigint n) = some (.vbigint n)) ∧
    (∀ (sfuel : Nat) (bs : List (Fin 256)), roundTrip sfuel (.vbuf bs) = some (.vbuf bs)) ∧
    (∀ (sfuel : Nat) (s : Str),
      JSONHandler.isBufferString s = false → JSONHandler.isBigintString s = false →
      JSONHandler.isJSONString s = false →
      roundTrip sfuel (.vstr s) = some (.vstr s)) ∧
    (roundTrip 2 (.varr [.vnum 1, .vnum 2, .vnum 3]) =
      some (.varr [.vnum 1, .vnum 2, .vnum 3])) ∧
    (roundTrip 2 (.vobj [(str "a", .vnum 1)]) = some (.vobj [(str "a", .vnum 1)])) := by
  refine ⟨fun sfuel => rfl, ?_, fun sfuel n => rfl, ?_, ?_, ?_, rfl, rfl⟩
  · intro sfuel b
    cases b <;> rfl
  · intro sfuel n
    show (some (Wire.wstr
      (JSONHandler.BIGINT_TAG ++ intToStr n ++ JSONHandler.BIGINT_TAG))).bind
        JSONHandler.parse = some (.vbigint n)
    rw [Option.some_bind]
    exact parse_tagged_bigint n
  · intro sfuel bs
    show (some (Wire.wstr
      (JSONHandler.BUFFER_TAG ++ hexEncode bs ++ JSONHandler.BUFFER_TAG))).bind
        JSONHandler.parse = some (.vbuf bs)
    rw [Option.some_bind]
    exact parse_tagged_buffer bs
  · intro sfuel s h1 h2 h3
    show (some (Wire.wstr s)).bind JSONHandler.parse = some (.vstr s)
    rw [Option.some_bind]
    simp only [JSONHandler.parse, h1, h2, h3]
    rfl

/-- Witness for C5 discharging the string-side hypotheses at the spec's
representative string `"s"`, plus the tag-carrying representatives (the
20-digit big integer and the blob `[0x00, 0xFF]`) from the quantified
conjuncts. -/
theorem c5_roundtrip_amended_witness :
    JSONHandler.isBufferString (str "s") = false ∧
    JSONHandler.isBigintString (str "s") = false ∧
    JSONHandler.isJSONString (str "s") = false ∧
    roundTrip 0 (.vstr (str "s")) = some (.vstr (str "s")) ∧
    roundTrip 0 (.vbigint 12345678901234567890) =
      some (.vbigint 12345678901234567890) ∧
    roundTrip 0 (.vbuf [0, 255]) = some (.vbuf [0, 255]) ∧
    roundTrip 1 (.vbool true) = some (.vbool true) :=
  ⟨rfl, rfl, rfl,
   c5_roundtrip_amended.2.2.2.2.2.1 0 (str "s") rfl rfl rfl,
   c5_roundtrip_amended.2.2.2.1 0 12345678901234567890,
   c5_roundtrip_amended.2.2.2.2.1 0 [0, 255],
   c5_roundtrip_amended.2.1 0 true⟩
